import Mathlib

/-!
# Beach Bingo: a shallow embedding of `src/App.jsx`

The component keeps three parallel 25-element arrays (`board`, `marked`,
`prompts`) plus a preview record, persists them as one JSON record under a
single `localStorage` key, and recomputes the win condition on every render.

Modelling conventions.

* JavaScript values that can sit in the arrays or in the stored record are
  values of `Json`.  The value `undefined` only arises from reading a missing
  property or an out-of-range index; such reads return `Option Json` with
  `none` standing for `undefined`.
* `Math.random` is external.  Inside `shuffle` the expression
  `Math.floor(Math.random() * (i + 1))` always lies in `{0, ..., i}`, so the
  random source is a family of choices `c i : Fin (i + 1)`, one per loop
  index `i`.
* `localStorage` is one slot (the code uses a single key) together with two
  flags saying whether reads and writes succeed or throw.  The stored text is
  kept up to what `JSON.parse` makes of it.
* React state setters are applied to the state in program order; an
  exception leaving an event handler does not undo the setters that ran
  before it.
-/

namespace BeachBingo

/-! ## JavaScript values -/

/-- Values of the JSON fragment of JavaScript.  Numbers are kept as integers;
the code never does arithmetic on stored numbers, it only compares a
`length` with `25` and tests truthiness. -/
inductive Json where
  | null : Json
  | bool (b : Bool) : Json
  | num (n : Int) : Json
  | str (s : String) : Json
  | arr (xs : List Json) : Json
  | obj (kvs : List (String × Json)) : Json

/-- JavaScript truthiness of a value (`none` is `undefined`). -/
def truthy : Option Json → Bool
  | none => false
  | some Json.null => false
  | some (Json.bool b) => b
  | some (Json.num n) => n != 0
  | some (Json.str s) => s != ""
  | some (Json.arr _) => true
  | some (Json.obj _) => true

/-- The test `v === "FREE"`. -/
def isFree : Option Json → Bool
  | some (Json.str s) => s == "FREE"
  | _ => false

/-- The `length` of a JavaScript string: its number of UTF-16 code units. -/
def jsLength (s : String) : Nat :=
  s.data.foldl (fun n ch => n + (if ch.val < 0x10000 then 1 else 2)) 0

/-- Property read `v.key` on a non-null value for a key that is neither an
array index nor `length`: only objects carry such own properties.  The list
of an object holds each own property once. -/
def getProp (v : Json) (key : String) : Option Json :=
  match v with
  | Json.obj kvs => kvs.lookup key
  | _ => none

/-- The test `Array.isArray(v) && v.length === 25`, returning the elements
on success. -/
def asArray25 : Option Json → Option (List Json)
  | some (Json.arr xs) => if xs.length = 25 then some xs else none
  | _ => none

/-- The test `v?.length === 25`, which does not ask for an array: strings
and objects with an own `length` property pass it too. -/
def hasLength25 : Option Json → Bool
  | some (Json.arr xs) => xs.length == 25
  | some (Json.str s) => jsLength s == 25
  | some (Json.obj kvs) =>
    match kvs.lookup "length" with
    | some (Json.num n) => n == 25
    | _ => false
  | _ => false

/-! ## Constants and pure helpers -/

/-- The vocabulary constant, entry for entry as in the source. -/
def DEFAULT_PROMPTS_24 : List String :=
  ["Blue Sandals", "Wet Beach Blanket", "Windblown Hair", "Green Snorkel", "Flip-Flops",
   "Seashells", "Neon Bikini", "Striped Towel", "Sunburned Shoulders", "Shell Anklet",
   "Colorful Umbrella", "Sandy Feet", "Patterned Beach Bag", "Hat Flying Away", "White Coverup",
   "Polka-dot Swimsuit", "Beachball", "Polished Nail", "Purple Hair", "Cooler",
   "Floral Shorts", "Sunglasses", "Sand Toys", "Sand Castle", "Happy Faces"]

/-- The random source seen by `shuffle`: the value of
`Math.floor(Math.random() * (i + 1))` at loop index `i`. -/
abbrev Choices := (i : Nat) → Fin (i + 1)

/-- The destructuring swap `[a[i], a[j]] = [a[j], a[i]]`: both reads happen
first, then `a[i]` and `a[j]` are written in that order.  Both indices are in
range at every call made by `shuffle`. -/
def swap {α : Type} (a : List α) (i j : Nat) : List α :=
  match a[i]?, a[j]? with
  | some x, some y => (a.set i y).set j x
  | _, _ => a

/-- The loop `for (let i = start; i > 0; i--)` of `shuffle`, acting on the
local copy. -/
def shuffleLoop {α : Type} (c : Choices) : Nat → List α → List α
  | 0, a => a
  | i + 1, a => shuffleLoop c i (swap a (i + 1) (c (i + 1)).val)

/-- The two arrays alive during a run of `shuffle`: the caller's array and
the local copy made by `[...arr]`. -/
structure ShuffleFrame (α : Type) where
  arr : List α
  a : List α

/-- A run of `shuffle`, keeping the caller's array next to the result. -/
def shuffleRun {α : Type} (c : Choices) (arr : List α) : ShuffleFrame α :=
  { arr := arr, a := shuffleLoop c (arr.length - 1) arr }

/-- The value returned by `shuffle`. -/
def shuffle {α : Type} (c : Choices) (arr : List α) : List α :=
  (shuffleRun c arr).a

/-- The result of `buildInitialBoard`. -/
def buildInitialBoard : List Json :=
  (List.replicate 25 Json.null).set 12 (Json.str "FREE")

/-- The value `Array(25).fill(false)`. -/
def allUnmarked : List Json :=
  List.replicate 25 (Json.bool false)

/-- One iteration of the loop of `buildRandomPrompts25` on the pair
`(p, k)`.  The read `shuffled24[k]` is in range whenever the shuffled list
has at least 24 entries. -/
def promptStep (shuffled24 : List String) (pk : List String × Nat) (i : Nat) :
    List String × Nat :=
  if i = 12 then (pk.1 ++ ["FREE"], pk.2)
  else (pk.1 ++ [shuffled24.getD pk.2 ""], pk.2 + 1)

/-- The function `buildRandomPrompts25`. -/
def buildRandomPrompts25 (c : Choices) : List String :=
  ((List.range 25).foldl (promptStep (shuffle c DEFAULT_PROMPTS_24)) ([], 0)).1

/-! ## Component state -/

/-- The preview record `{ open, src, label }`. -/
structure Preview where
  isOpen : Bool
  src : String
  label : String
  deriving DecidableEq, Repr

/-- The value `{ open: false, src: "", label: "" }`. -/
def closedPreview : Preview :=
  { isOpen := false, src := "", label := "" }

/-- The four pieces of React state of `App`. -/
structure State where
  prompts : List Json
  board : List Json
  marked : List Json
  preview : Preview

/-- The state produced by the `useState` initialisers. -/
def initialState (c : Choices) : State :=
  { prompts := (buildRandomPrompts25 c).map Json.str
    board := buildInitialBoard
    marked := allUnmarked
    preview := closedPreview }

/-- The handler `toggleMark`. -/
def toggleMark (s : State) (index : Nat) : State :=
  if isFree s.board[index]? then s
  else { s with marked := s.marked.set index (Json.bool (!truthy s.marked[index]?)) }

/-- The callback `reader.onload` installed by `handleImage`; `result` is
`reader.result`. -/
def onload (result : String) (index : Nat) (s : State) : State :=
  let s1 := { s with board := s.board.set index (Json.str result) }
  { s1 with marked := s1.marked.set index (Json.bool true) }

/-- The handler `handleImage`.  The argument `file` is `e.target.files?.[0]`
and `readAsDataURL` is the decoder of `FileReader`.  The handler itself
changes nothing; when a file is present it returns the state update that runs
once decoding has finished. -/
def handleImage {File : Type} (readAsDataURL : File → String) (file : Option File)
    (index : Nat) : Option (State → State) :=
  match file with
  | none => none
  | some f => some (onload (readAsDataURL f) index)

/-- The twelve lines listed in `checkBingo`. -/
def lines : List (List Nat) :=
  [[0, 1, 2, 3, 4],
   [5, 6, 7, 8, 9],
   [10, 11, 12, 13, 14],
   [15, 16, 17, 18, 19],
   [20, 21, 22, 23, 24],
   [0, 5, 10, 15, 20],
   [1, 6, 11, 16, 21],
   [2, 7, 12, 17, 22],
   [3, 8, 13, 18, 23],
   [4, 9, 14, 19, 24],
   [0, 6, 12, 18, 24],
   [4, 8, 12, 16, 20]]

/-- The function `checkBingo`. -/
def checkBingo (s : State) : Bool :=
  lines.any (fun line => line.all (fun i => truthy s.marked[i]? || isFree s.board[i]?))

/-! ## Storage -/

/-- A stored text, up to what `JSON.parse` makes of it. -/
inductive Raw where
  | empty : Raw
  | garbage : Raw
  | json (v : Json) : Raw

/-- The slot under `STORAGE_KEY` and whether the store can be read and
written. -/
structure Storage where
  item : Option Raw
  readable : Bool
  writable : Bool

/-- The call `localStorage.getItem(STORAGE_KEY)`; `none` is a thrown
exception, `some none` is the result `null`. -/
def getItem (st : Storage) : Option (Option Raw) :=
  if st.readable then some st.item else none

/-- The call `localStorage.setItem(STORAGE_KEY, text)`; `none` is a thrown
exception. -/
def setItem (st : Storage) (text : Raw) : Option Storage :=
  if st.writable then some { st with item := some text } else none

/-- The function `JSON.stringify` on a value without `undefined`. -/
def stringify (v : Json) : Raw :=
  Raw.json v

/-- The function `JSON.parse`; `none` is a thrown `SyntaxError`. -/
def parse : Raw → Option Json
  | Raw.empty => none
  | Raw.garbage => none
  | Raw.json v => some v

/-- The object literal `{ board, marked, prompts }`. -/
def record (board marked prompts : Json) : Json :=
  Json.obj [("board", board), ("marked", marked), ("prompts", prompts)]

/-- The record built from the three state arrays. -/
def snapshot (s : State) : Json :=
  record (Json.arr s.board) (Json.arr s.marked) (Json.arr s.prompts)

/-- What an effect or handler leaves behind. -/
structure Outcome where
  state : State
  storage : Storage
  warned : Bool
  thrown : Bool

/-- The expression `v?.length === 25 ? v : d`. -/
def orDefault25 (v : Option Json) (d : Json) : Json :=
  match v with
  | some x => if hasLength25 (some x) then x else d
  | none => d

/-- The body of the `try` block of the load effect once `raw` has parsed to a
non-null value `saved`. -/
def applySaved (fresh : Choices) (s : State) (st : Storage) (saved : Json) : Outcome :=
  let s1 := match asArray25 (getProp saved "board") with
    | some xs => { s with board := xs }
    | none => s
  let s2 := match asArray25 (getProp saved "marked") with
    | some xs => { s1 with marked := xs }
    | none => s1
  match asArray25 (getProp saved "prompts") with
  | some xs => { state := { s2 with prompts := xs }, storage := st, warned := false, thrown := false }
  | none =>
    let freshPrompts := (buildRandomPrompts25 fresh).map Json.str
    let s3 := { s2 with prompts := freshPrompts }
    let b := orDefault25 (getProp saved "board") (Json.arr buildInitialBoard)
    let m := orDefault25 (getProp saved "marked") (Json.arr allUnmarked)
    match setItem st (stringify (record b m (Json.arr freshPrompts))) with
    | some st1 => { state := s3, storage := st1, warned := false, thrown := false }
    | none => { state := s3, storage := st, warned := true, thrown := false }

/-- The load effect, run on the current state `s`. -/
def loadEffect (fresh : Choices) (s : State) (st : Storage) : Outcome :=
  let caught : Outcome := { state := s, storage := st, warned := true, thrown := false }
  match getItem st with
  | none => caught
  | some none | some (some Raw.empty) =>
    match setItem st (stringify (record (Json.arr buildInitialBoard) (Json.arr allUnmarked)
        (Json.arr s.prompts))) with
    | some st1 => { state := s, storage := st1, warned := false, thrown := false }
    | none => caught
  | some (some raw) =>
    match parse raw with
    | none => caught
    | some Json.null => caught
    | some saved => applySaved fresh s st saved

/-- The first render followed by the load effect. -/
def mount (c fresh : Choices) (st : Storage) : Outcome :=
  loadEffect fresh (initialState c) st

/-- The save effect. -/
def saveEffect (s : State) (st : Storage) : Outcome :=
  match setItem st (stringify (snapshot s)) with
  | some st1 => { state := s, storage := st1, warned := false, thrown := false }
  | none => { state := s, storage := st, warned := true, thrown := false }

/-- The handler `resetBoardRandom`. -/
def resetBoardRandom (fresh : Choices) (_s : State) (st : Storage) : Outcome :=
  let newPrompts := (buildRandomPrompts25 fresh).map Json.str
  let newBoard := buildInitialBoard
  let newMarked := allUnmarked
  let s1 : State :=
    { prompts := newPrompts, board := newBoard, marked := newMarked, preview := closedPreview }
  match setItem st (stringify (record (Json.arr newBoard) (Json.arr newMarked)
      (Json.arr newPrompts))) with
  | some st1 => { state := s1, storage := st1, warned := false, thrown := false }
  | none => { state := s1, storage := st, warned := false, thrown := true }

/-! ## The specification's line table, scenarios and sample inputs -/

/-- The choices `j = i` at every loop index: each swap exchanges a cell with
itself. -/
def lastChoices : Choices := fun i => Fin.last i

/-- Row `r` of the 5x5 row-major grid, `{5r, ..., 5r + 4}`, as the
specification describes it. -/
def rowLine (r : Nat) : List Nat :=
  (List.range 5).map (fun k => 5 * r + k)

/-- Column `c` of the grid, `{c, c + 5, c + 10, c + 15, c + 20}`, as the
specification describes it. -/
def colLine (c : Nat) : List Nat :=
  (List.range 5).map (fun k => c + 5 * k)

/-- The twelve lines of the specification: five rows, five columns, the
diagonal and the anti-diagonal. -/
def twelveLines : List (List Nat) :=
  (List.range 5).map rowLine ++ (List.range 5).map colLine
    ++ [[0, 6, 12, 18, 24], [4, 8, 12, 16, 20]]

/-- The scenario "mark every cell except index 24": `toggleMark` is called
once on each of the cells `0, ..., 23`. -/
def markAllBut24 (s : State) : State :=
  (List.range 24).foldl toggleMark s

/-- The state once a pending update, if any, has been applied. -/
def settle (update : Option (State → State)) (s : State) : State :=
  match update with
  | none => s
  | some f => f s

/-- A stored record whose `marked` field holds 25 strings instead of 25
booleans; its `board` and `prompts` fields are well-formed. -/
def mistypedRecord : Json :=
  record (Json.arr buildInitialBoard) (Json.arr (List.replicate 25 (Json.str "yes")))
    (Json.arr ((buildRandomPrompts25 lastChoices).map Json.str))

/-- A stored record whose `board` field has 3 elements; its `marked` and
`prompts` fields are well-formed. -/
def shortBoardRecord : Json :=
  record (Json.arr [Json.null, Json.null, Json.null])
    (Json.arr (List.replicate 25 (Json.bool true)))
    (Json.arr ((buildRandomPrompts25 lastChoices).map Json.str))

/-- A store that can be read and written and holds nothing yet. -/
def emptyStorage : Storage :=
  { item := none, readable := true, writable := true }

/-- A store that can be read but rejects every write. -/
def fullStorage : Storage :=
  { item := none, readable := true, writable := false }

set_option maxRecDepth 100000

/-! ## Facts about `swap` -/

section Swap
variable {α : Type}

theorem cons_set_perm (x y : α) : ∀ (xs : List α) (j : Nat), xs[j]? = some y →
    List.Perm (y :: xs.set j x) (x :: xs)
  | [], j, h => by simp at h
  | z :: zs, 0, h => by
    simp at h
    subst h
    simpa using List.Perm.swap x z zs
  | z :: zs, j + 1, h => by
    simp at h
    have ih := cons_set_perm x y zs j h
    simp only [List.set_cons_succ]
    exact (List.Perm.swap z y _).trans (((ih.cons z)).trans (List.Perm.swap x z zs))

theorem swap_perm : ∀ (a : List α) (i j : Nat), List.Perm (swap a i j) a
  | [], i, j => by simp [swap]
  | h :: t, 0, 0 => by simp [swap]
  | h :: t, 0, j + 1 => by
    unfold swap
    cases hj : t[j]? with
    | none => simp [hj]
    | some y => simpa [hj] using cons_set_perm h y t j hj
  | h :: t, i + 1, 0 => by
    unfold swap
    cases hi : t[i]? with
    | none => simp [hi]
    | some x => simpa [hi] using cons_set_perm h x t i hi
  | h :: t, i + 1, j + 1 => by
    have ih := swap_perm t i j
    unfold swap at ih ⊢
    cases hi : t[i]? with
    | none => simp [hi]
    | some x =>
      cases hj : t[j]? with
      | none => simp [hi, hj]
      | some y => simpa [hi, hj] using ih

theorem length_swap (a : List α) (i j : Nat) : (swap a i j).length = a.length :=
  (swap_perm a i j).length_eq

theorem getElem?_swap (a : List α) (i j k : Nat) (hi : i < a.length) (hj : j < a.length) :
    (swap a i j)[k]? = if k = j then a[i]? else if k = i then a[j]? else a[k]? := by
  unfold swap
  rw [List.getElem?_eq_getElem hi, List.getElem?_eq_getElem hj]
  simp only [List.getElem?_set, List.length_set]
  by_cases h1 : k = j
  · subst h1; simp [hj]
  · by_cases h2 : k = i
    · subst h2; simp [hi, Ne.symm h1, h1]
    · simp [h1, h2, Ne.symm h1, Ne.symm h2]

end Swap

/-! ## Facts about the shuffle loop -/

section Loop
variable {α : Type}

theorem getElem?_swap_of_ne (a : List α) (i j k : Nat) (hi : k ≠ i) (hj : k ≠ j) :
    (swap a i j)[k]? = a[k]? := by
  unfold swap
  split
  · simp [List.getElem?_set, Ne.symm hi, Ne.symm hj]
  · rfl

theorem shuffleLoop_perm (c : Choices) : ∀ (i : Nat) (a : List α),
    List.Perm (shuffleLoop c i a) a
  | 0, a => List.Perm.refl a
  | i + 1, a => (shuffleLoop_perm c i _).trans (swap_perm a (i + 1) _)

theorem shuffleLoop_getElem?_of_lt (c : Choices) : ∀ (i : Nat) (a : List α) (k : Nat),
    i < k → (shuffleLoop c i a)[k]? = a[k]?
  | 0, a, k, _ => rfl
  | i + 1, a, k, h => by
    have hc : (c (i + 1)).val < i + 2 := (c (i + 1)).isLt
    show (shuffleLoop c i (swap a (i + 1) (c (i + 1)).val))[k]? = a[k]?
    rw [shuffleLoop_getElem?_of_lt c i _ k (by omega)]
    exact getElem?_swap_of_ne a _ _ k (by omega) (by omega)

theorem shuffleLoop_congr (c d : Choices) : ∀ (i : Nat) (a : List α),
    (∀ k, 1 ≤ k → k ≤ i → c k = d k) → shuffleLoop c i a = shuffleLoop d i a
  | 0, a, _ => rfl
  | i + 1, a, h => by
    show shuffleLoop c i (swap a (i + 1) (c (i + 1)).val)
      = shuffleLoop d i (swap a (i + 1) (d (i + 1)).val)
    rw [h (i + 1) (by omega) (by omega)]
    exact shuffleLoop_congr c d i _ (fun k h1 h2 => h k h1 (by omega))

theorem shuffleLoop_injective (c d : Choices) : ∀ (i : Nat) (a : List α),
    a.Nodup → i < a.length → shuffleLoop c i a = shuffleLoop d i a →
    ∀ k, 1 ≤ k → k ≤ i → c k = d k
  | 0, a, _, _, _ => fun k h1 h2 => by omega
  | i + 1, a, hnd, hlen, heq => by
    have hc : (c (i + 1)).val < i + 2 := (c (i + 1)).isLt
    have hd : (d (i + 1)).val < i + 2 := (d (i + 1)).isLt
    have heq1 : shuffleLoop c i (swap a (i + 1) (c (i + 1)).val)
        = shuffleLoop d i (swap a (i + 1) (d (i + 1)).val) := heq
    have hget := congrArg (fun l => l[i + 1]?) heq1
    simp only at hget
    rw [shuffleLoop_getElem?_of_lt c i _ (i + 1) (by omega),
      shuffleLoop_getElem?_of_lt d i _ (i + 1) (by omega),
      getElem?_swap a _ _ _ hlen (by omega), getElem?_swap a _ _ _ hlen (by omega)] at hget
    have hval : (c (i + 1)).val = (d (i + 1)).val := by
      have key : a[(c (i + 1)).val]? = a[(d (i + 1)).val]? := by
        by_cases h1 : i + 1 = (c (i + 1)).val <;> by_cases h2 : i + 1 = (d (i + 1)).val
        · rw [← h1, ← h2]
        · rw [if_pos h1, if_neg h2, if_pos rfl] at hget
          rw [← h1]; exact hget
        · rw [if_neg h1, if_pos rfl, if_pos h2] at hget
          rw [← h2]; exact hget
        · rw [if_neg h1, if_pos rfl, if_neg h2, if_pos rfl] at hget
          exact hget
      exact (List.getElem?_inj (by omega) hnd key)
    have hfin : c (i + 1) = d (i + 1) := Fin.ext hval
    rw [hfin] at heq1
    have ih := shuffleLoop_injective c d i (swap a (i + 1) (d (i + 1)).val)
      ((swap_perm a _ _).nodup_iff.mpr hnd) (by rw [length_swap]; omega) heq1
    intro k h1 h2
    by_cases hk : k = i + 1
    · subst hk; exact hfin
    · exact ih k h1 (by omega)

end Loop

section Surj
variable {α : Type}

theorem exists_source_index (a t : List α) (i : Nat) (hnd : a.Nodup) (hlen : i < a.length)
    (hp : List.Perm a t) (hk : ∀ k, i < k → a[k]? = t[k]?) :
    ∃ j, j ≤ i ∧ a[j]? = t[i]? := by
  have hlt : i < t.length := hp.length_eq ▸ hlen
  have hmem : t[i] ∈ a := hp.mem_iff.mpr (List.getElem_mem hlt)
  obtain ⟨j, hj⟩ := List.mem_iff_getElem?.mp hmem
  refine ⟨j, ?_, by rw [hj, List.getElem?_eq_getElem hlt]⟩
  by_contra hgt
  have h1 : t[i]? = t[j]? := by
    rw [← hk j (by omega), hj, List.getElem?_eq_getElem hlt]
  have := List.getElem?_inj hlt (hp.nodup_iff.mp hnd) h1
  omega

theorem shuffleLoop_surjective : ∀ (i : Nat) (a t : List α), a.Nodup → i < a.length →
    List.Perm a t → (∀ k, i < k → a[k]? = t[k]?) → ∃ c : Choices, shuffleLoop c i a = t
  | 0, a, t, hnd, hlen, hp, hk => by
    obtain ⟨j, hj, hj0⟩ := exists_source_index a t 0 hnd hlen hp hk
    have hj' : j = 0 := by omega
    subst hj'
    refine ⟨fun i => Fin.last i, ?_⟩
    show a = t
    apply List.ext_getElem?
    intro n
    cases n with
    | zero => exact hj0
    | succ n => exact hk (n + 1) (by omega)
  | i + 1, a, t, hnd, hlen, hp, hk => by
    obtain ⟨j, hj, hj0⟩ := exists_source_index a t (i + 1) hnd hlen hp hk
    have hjlen : j < a.length := by omega
    obtain ⟨c, hc⟩ := shuffleLoop_surjective i (swap a (i + 1) j) t
      ((swap_perm a _ _).nodup_iff.mpr hnd) (by rw [length_swap]; omega)
      ((swap_perm a _ _).trans hp)
      (by
        intro k hik
        by_cases hk1 : k = i + 1
        · subst hk1
          rw [getElem?_swap a _ _ _ hlen hjlen, ← hj0]
          by_cases hij : i + 1 = j
          · rw [if_pos hij, ← hij]
          · rw [if_neg hij, if_pos rfl]
        · rw [getElem?_swap_of_ne a _ _ k hk1 (by omega)]
          exact hk k (by omega))
    refine ⟨Function.update c (i + 1) ⟨j, by omega⟩, ?_⟩
    show shuffleLoop _ i (swap a (i + 1) (Function.update c (i + 1) ⟨j, _⟩ (i + 1)).val) = t
    rw [Function.update_same]
    have hcongr := shuffleLoop_congr (Function.update c (i + 1) ⟨j, by omega⟩) c i
      (swap a (i + 1) j) (fun k _ h2 => Function.update_noteq (by omega) _ _)
    exact hcongr.trans hc

end Surj


/-! ## The shuffle -/

/-- Claim C10.  `shuffle` is an unbiased Fisher-Yates shuffle.  For an input
list `l` of pairwise distinct elements and the random source read as one
choice `c i` in `{0, ..., i}` per loop index `i` from `l.length - 1` down to
`1`: every output is a permutation of `l` of the same length, the caller's
list is left as it was, the output depends on the choices at those loop
indices only, and every permutation `t` of `l` is the output of exactly one
choice sequence (some `c` produces `t`, and any `d` producing `t` agrees
with `c` at every loop index). -/
theorem shuffle_bijective_onto_permutations {α : Type} (l : List α) (hnd : l.Nodup) :
    (∀ c : Choices, List.Perm (shuffle c l) l ∧ (shuffle c l).length = l.length
      ∧ (shuffleRun c l).arr = l)
    ∧ (∀ c d : Choices, (∀ i, 1 ≤ i → i < l.length → c i = d i) → shuffle c l = shuffle d l)
    ∧ (∀ t : List α, List.Perm t l →
        ∃ c : Choices, shuffle c l = t
          ∧ ∀ d : Choices, shuffle d l = t → ∀ i, 1 ≤ i → i < l.length → d i = c i) := by
  refine ⟨fun c => ⟨shuffleLoop_perm c _ l, (shuffleLoop_perm c _ l).length_eq, rfl⟩,
    fun c d h => shuffleLoop_congr c d _ l (fun k h1 h2 => h k h1 (by omega)), ?_⟩
  intro t ht
  cases l with
  | nil =>
    refine ⟨fun i => Fin.last i, ?_, ?_⟩
    · exact (List.perm_nil.mp ht).symm
    · intro d _ i _ hi
      simp at hi
  | cons x xs =>
    have hlen : (x :: xs).length - 1 < (x :: xs).length := by simp
    obtain ⟨c, hc⟩ := shuffleLoop_surjective ((x :: xs).length - 1) (x :: xs) t hnd hlen
      ht.symm (fun k hk => by
        have h1 : (x :: xs).length ≤ k := by simp at hk ⊢; omega
        have h2 : t.length ≤ k := by rw [ht.length_eq]; exact h1
        rw [List.getElem?_eq_none h1, List.getElem?_eq_none h2])
    refine ⟨c, hc, ?_⟩
    intro d hd i h1 h2
    exact shuffleLoop_injective d c ((x :: xs).length - 1) (x :: xs) hnd hlen
      (hd.trans hc.symm) i h1 (by simp at h2 ⊢; omega)

/-- Claim C10, instance: the three-element list `[1, 2, 3]`. -/
theorem shuffle_bijective_onto_permutations_witness :
    [1, 2, 3].Nodup
    ∧ ((∀ c : Choices, List.Perm (shuffle c [1, 2, 3]) [1, 2, 3]
          ∧ (shuffle c [1, 2, 3]).length = [1, 2, 3].length
          ∧ (shuffleRun c [1, 2, 3]).arr = [1, 2, 3])
      ∧ (∀ c d : Choices, (∀ i, 1 ≤ i → i < [1, 2, 3].length → c i = d i) →
          shuffle c [1, 2, 3] = shuffle d [1, 2, 3])
      ∧ (∀ t : List Nat, List.Perm t [1, 2, 3] →
          ∃ c : Choices, shuffle c [1, 2, 3] = t
            ∧ ∀ d : Choices, shuffle d [1, 2, 3] = t →
              ∀ i, 1 ≤ i → i < [1, 2, 3].length → d i = c i)) :=
  ⟨by decide, shuffle_bijective_onto_permutations [1, 2, 3] (by decide)⟩


/-! ## The prompt generator -/

theorem shuffle_perm {α : Type} (c : Choices) (l : List α) : List.Perm (shuffle c l) l :=
  shuffleLoop_perm c _ l

theorem DEFAULT_PROMPTS_24_length : DEFAULT_PROMPTS_24.length = 25 := rfl

theorem length_shuffle_default (c : Choices) : (shuffle c DEFAULT_PROMPTS_24).length = 25 := by
  rw [(shuffle_perm c DEFAULT_PROMPTS_24).length_eq, DEFAULT_PROMPTS_24_length]

theorem range_map_getD_eq_take {α : Type} (l : List α) (d : α) (n : Nat) (h : n ≤ l.length) :
    (List.range n).map (fun k => l.getD k d) = l.take n := by
  apply List.ext_getElem
  · simp [h]
  · intro i h1 h2
    simp at h1
    simp [List.getD, List.getElem?_eq_getElem (show i < l.length by omega)]

theorem promptLoop_eq (sh : List String) :
    ((List.range 25).foldl (promptStep sh) ([], 0)).1
      = ((List.range 24).map (fun k => sh.getD k "")).insertIdx 12 "FREE" := by
  simp [List.range_succ, promptStep, List.insertIdx_succ_cons, List.insertIdx_zero]

theorem buildRandomPrompts25_eq (c : Choices) :
    buildRandomPrompts25 c
      = ((shuffle c DEFAULT_PROMPTS_24).take 24).insertIdx 12 "FREE" := by
  rw [← range_map_getD_eq_take _ "" 24 (by rw [length_shuffle_default]; omega)]
  exact promptLoop_eq _

theorem exists_prompt_not_on_board (c : Choices) :
    ∃ v, v ∈ DEFAULT_PROMPTS_24 ∧ v ∉ buildRandomPrompts25 c := by
  have hperm := shuffle_perm c DEFAULT_PROMPTS_24
  have hlen := length_shuffle_default c
  have hnd : (shuffle c DEFAULT_PROMPTS_24).Nodup := hperm.nodup_iff.mpr (by decide)
  have hsplit := List.take_append_drop 24 (shuffle c DEFAULT_PROMPTS_24)
  have hlt : 24 < (shuffle c DEFAULT_PROMPTS_24).length := by omega
  have hmem : (shuffle c DEFAULT_PROMPTS_24)[24] ∈ shuffle c DEFAULT_PROMPTS_24 :=
    List.getElem_mem hlt
  have hdrop : (shuffle c DEFAULT_PROMPTS_24)[24] ∈ (shuffle c DEFAULT_PROMPTS_24).drop 24 := by
    rw [List.drop_eq_getElem_cons hlt]
    exact List.mem_cons_self _ _
  refine ⟨(shuffle c DEFAULT_PROMPTS_24)[24], hperm.mem_iff.mp hmem, ?_⟩
  rw [buildRandomPrompts25_eq, List.mem_insertIdx (by rw [List.length_take]; omega)]
  rintro (hfree | htake)
  · have h1 : "FREE" ∈ DEFAULT_PROMPTS_24 := hfree ▸ hperm.mem_iff.mp hmem
    revert h1
    decide
  · rw [← hsplit] at hnd
    exact (List.nodup_append.mp hnd).2.2 htake hdrop

/-- Claim C1 (fails on the code).  The vocabulary constant holds 25 pairwise
distinct strings, none of them `"FREE"`, one more than the 24 its name and
comment announce.  For every outcome of the random source the generated board
has 25 entries with `"FREE"` at index 12 and the first 24 entries of the
shuffled vocabulary, in order, at the other indices; so one vocabulary item
is always left off the board.  With the choices `j = i` that item is
`"Happy Faces"`. -/
theorem buildRandomPrompts25_omits_a_prompt :
    DEFAULT_PROMPTS_24.length = 25 ∧ DEFAULT_PROMPTS_24.Nodup ∧ "FREE" ∉ DEFAULT_PROMPTS_24
    ∧ (∀ c : Choices,
        (buildRandomPrompts25 c).length = 25
        ∧ (buildRandomPrompts25 c)[12]? = some "FREE"
        ∧ (buildRandomPrompts25 c).eraseIdx 12 = (shuffle c DEFAULT_PROMPTS_24).take 24
        ∧ ∃ v, v ∈ DEFAULT_PROMPTS_24 ∧ v ∉ buildRandomPrompts25 c)
    ∧ "Happy Faces" ∈ DEFAULT_PROMPTS_24
    ∧ "Happy Faces" ∉ buildRandomPrompts25 lastChoices := by
  refine ⟨rfl, by decide, by decide, ?_, by decide, ?_⟩
  · intro c
    have hlen := length_shuffle_default c
    have htake : 12 ≤ ((shuffle c DEFAULT_PROMPTS_24).take 24).length := by
      rw [List.length_take]; omega
    refine ⟨?_, ?_, ?_, exists_prompt_not_on_board c⟩
    · rw [buildRandomPrompts25_eq, List.length_insertIdx _ _ htake, List.length_take]; omega
    · rw [buildRandomPrompts25_eq]
      have h12 : 12 < (List.insertIdx 12 "FREE" ((shuffle c DEFAULT_PROMPTS_24).take 24)).length := by
        rw [List.length_insertIdx _ _ htake]; omega
      rw [List.getElem?_eq_getElem h12, List.getElem_insertIdx_self _ _ _ htake]
    · rw [buildRandomPrompts25_eq, List.eraseIdx_insertIdx]
  · decide


/-! ## The win evaluator -/

theorem lines_index_lt : ∀ line ∈ lines, ∀ i ∈ line, i < 25 := by decide

theorem cell_covered_iff (s : State) (bs : List Bool) (i : Nat) (hi : i < 25)
    (hfree : ∀ i, i < 25 → (isFree s.board[i]? = true ↔ i = 12))
    (hm : s.marked = bs.map Json.bool) :
    (truthy s.marked[i]? || isFree s.board[i]?) = true ↔ (i = 12 ∨ bs[i]? = some true) := by
  rw [Bool.or_eq_true, hfree i hi, hm, List.getElem?_map]
  cases hb : bs[i]? with
  | none => simp [truthy]
  | some b => cases b <;> simp [truthy, or_comm]

/-- Claim C2.  On a board of 25 cells whose only `"FREE"` cell is index 12
and a `marked` array of 25 booleans, `checkBingo` returns true exactly when
one of the twelve lines of the grid (five rows, five columns, diagonal,
anti-diagonal) has every index equal to 12 or marked; and the line table
written in the code is exactly those twelve lines.  The statement needs of
the board only that index 12 is its one `"FREE"` cell among `0, ..., 24`, and
of `marked` only that its entries are booleans. -/
theorem checkBingo_iff_line_covered (s : State) (bs : List Bool)
    (hfree : ∀ i, i < 25 → (isFree s.board[i]? = true ↔ i = 12))
    (hm : s.marked = bs.map Json.bool) :
    lines = twelveLines
    ∧ (checkBingo s = true ↔
        ∃ line, line ∈ twelveLines ∧ ∀ i, i ∈ line → i = 12 ∨ bs[i]? = some true) := by
  have htable : lines = twelveLines := by decide
  refine ⟨htable, ?_⟩
  rw [← htable]
  unfold checkBingo
  rw [List.any_eq_true]
  constructor
  · rintro ⟨line, hmem, hall⟩
    rw [List.all_eq_true] at hall
    exact ⟨line, hmem, fun i hi =>
      (cell_covered_iff s bs i (lines_index_lt line hmem i hi) hfree hm).mp (hall i hi)⟩
  · rintro ⟨line, hmem, hall⟩
    refine ⟨line, hmem, ?_⟩
    rw [List.all_eq_true]
    exact fun i hi =>
      (cell_covered_iff s bs i (lines_index_lt line hmem i hi) hfree hm).mpr (hall i hi)

/-- Claim C2, instance: the state of the first render, where nothing is
marked. -/
theorem checkBingo_iff_line_covered_witness :
    (∀ i, i < 25 → (isFree (initialState lastChoices).board[i]? = true ↔ i = 12))
    ∧ (initialState lastChoices).marked = (List.replicate 25 false).map Json.bool
    ∧ lines = twelveLines
    ∧ (checkBingo (initialState lastChoices) = true ↔
        ∃ line, line ∈ twelveLines
          ∧ ∀ i, i ∈ line → i = 12 ∨ (List.replicate 25 false)[i]? = some true) :=
  ⟨by decide, rfl,
    checkBingo_iff_line_covered (initialState lastChoices) (List.replicate 25 false)
      (by decide) rfl⟩

theorem toggleMark_board (s : State) (i : Nat) : (toggleMark s i).board = s.board := by
  unfold toggleMark
  split <;> rfl

theorem foldl_toggleMark_board (l : List Nat) : ∀ s : State,
    (l.foldl toggleMark s).board = s.board := by
  induction l with
  | nil => intro s; rfl
  | cons i l ih => intro s; rw [List.foldl_cons, ih, toggleMark_board]

theorem toggleMark_marked (s : State) (i : Nat) :
    (toggleMark s i).marked
      = if isFree s.board[i]? then s.marked
        else s.marked.set i (Json.bool (!truthy s.marked[i]?)) := by
  unfold toggleMark
  split <;> rfl

theorem foldl_toggleMark_marked (l : List Nat) : ∀ s : State,
    (l.foldl toggleMark s).marked
      = l.foldl (fun m i => if isFree s.board[i]? then m
          else m.set i (Json.bool (!truthy m[i]?))) s.marked := by
  induction l with
  | nil => intro s; rfl
  | cons i l ih =>
    intro s
    rw [List.foldl_cons, ih, toggleMark_board, toggleMark_marked, List.foldl_cons]

theorem markAllBut24_board (c : Choices) :
    (markAllBut24 (initialState c)).board = buildInitialBoard :=
  foldl_toggleMark_board _ _

theorem markAllBut24_marked (c : Choices) :
    (markAllBut24 (initialState c)).marked
      = ((List.replicate 24 true ++ [false]).set 12 false).map Json.bool := by
  unfold markAllBut24
  rw [foldl_toggleMark_marked]
  show (List.range 24).foldl (fun m i => if isFree buildInitialBoard[i]? then m
      else m.set i (Json.bool (!truthy m[i]?))) allUnmarked = _
  simp [List.range_succ, buildInitialBoard, allUnmarked, isFree, truthy, List.replicate]

/-- Claim C3 (fails on the code).  From the state of the first render with
the choices `j = i`, calling `toggleMark` on each of the cells `0, ..., 23`
leaves `checkBingo` true, not false. -/
theorem checkBingo_after_markAllBut24_not_false :
    ¬ (checkBingo (markAllBut24 (initialState lastChoices)) = false) := by
  decide

/-- Claim C3, amended.  From the fresh state, after marking every cell
except index 24, `checkBingo` returns true: a line of the table is fully
covered exactly when it avoids index 24, which nine of the twelve lines do
(the last row, the last column and the diagonal pass through 24). -/
theorem checkBingo_after_markAllBut24 (c : Choices) :
    checkBingo (markAllBut24 (initialState c)) = true
    ∧ (∀ line, line ∈ lines →
        (line.all (fun i => truthy (markAllBut24 (initialState c)).marked[i]?
            || isFree (markAllBut24 (initialState c)).board[i]?) = true ↔ 24 ∉ line))
    ∧ (lines.filter (fun line => decide (24 ∉ line))).length = 9 := by
  unfold checkBingo
  rw [markAllBut24_marked, markAllBut24_board]
  decide


/-! ## The board state store -/

/-- Claim C4.  For a state with 25 marks and an index `i` among
`0, ..., 24`: when `board[i]` is `"FREE"`, `toggleMark` returns the state
unchanged; otherwise `marked` is the old array with entry `i` replaced by its
negation (for a boolean entry `b`, by `!b`), and `board`, `prompts` and the
preview are untouched.  In particular, on a board whose cell 12 is `"FREE"`,
`toggleMark 12` does not change `marked[12]`. -/
theorem toggleMark_spec (s : State) (i : Nat) (hi : i < 25) (hlen : s.marked.length = 25) :
    (isFree s.board[i]? = true → toggleMark s i = s)
    ∧ (isFree s.board[i]? = false →
        (toggleMark s i).marked = s.marked.set i (Json.bool (!truthy s.marked[i]?))
        ∧ (toggleMark s i).marked[i]? = some (Json.bool (!truthy s.marked[i]?))
        ∧ (∀ b, s.marked[i]? = some (Json.bool b) →
            (toggleMark s i).marked[i]? = some (Json.bool (!b)))
        ∧ (∀ k, k ≠ i → (toggleMark s i).marked[k]? = s.marked[k]?)
        ∧ (toggleMark s i).marked.length = 25
        ∧ (toggleMark s i).board = s.board
        ∧ (toggleMark s i).prompts = s.prompts
        ∧ (toggleMark s i).preview = s.preview)
    ∧ (s.board[12]? = some (Json.str "FREE") →
        (toggleMark s 12).marked[12]? = s.marked[12]?) := by
  refine ⟨?_, ?_, ?_⟩
  · intro h
    simp [toggleMark, h]
  · intro h
    have hfix : (toggleMark s i).marked[i]? = some (Json.bool (!truthy s.marked[i]?)) := by
      simp [toggleMark, h, List.getElem?_set, hlen, hi]
    refine ⟨by simp [toggleMark, h], hfix, ?_, ?_, by simp [toggleMark, h, hlen],
      by simp [toggleMark, h], by simp [toggleMark, h], by simp [toggleMark, h]⟩
    · intro b hb
      rw [hfix, hb]
      rfl
    · intro k hk
      simp [toggleMark, h, List.getElem?_set, Ne.symm hk]
  · intro h
    have hfree : isFree s.board[12]? = true := by rw [h]; decide
    simp [toggleMark, hfree]

/-- Claim C4, instance: cell 3 of the state of the first render. -/
theorem toggleMark_spec_witness :
    3 < 25 ∧ (initialState lastChoices).marked.length = 25
    ∧ isFree (initialState lastChoices).board[3]? = false
    ∧ (toggleMark (initialState lastChoices) 3).marked[3]? = some (Json.bool true) :=
  ⟨by decide, rfl, by decide,
    ((toggleMark_spec (initialState lastChoices) 3 (by decide) rfl).2.1
      (by decide)).2.2.1 false rfl⟩

/-- Claim C5.  For a state with 25 cells and 25 marks, an index `i` among
`0, ..., 24` (12 included, although the page offers no upload there) and a
supplied file, the state after the `onload` callback of `handleImage` has
`board[i]` equal to the decoded image and `marked[i]` true whatever it was
before, with every other entry of `board` and `marked`, all of `prompts` and
the preview unchanged; with no file supplied no update is made. -/
theorem handleImage_spec {File : Type} (readAsDataURL : File → String) (s : State) (i : Nat)
    (hi : i < 25) (hboard : s.board.length = 25) (hmarked : s.marked.length = 25) :
    (∀ f : File,
        (settle (handleImage readAsDataURL (some f) i) s).board
          = s.board.set i (Json.str (readAsDataURL f))
        ∧ (settle (handleImage readAsDataURL (some f) i) s).marked
          = s.marked.set i (Json.bool true)
        ∧ (settle (handleImage readAsDataURL (some f) i) s).board[i]?
          = some (Json.str (readAsDataURL f))
        ∧ (settle (handleImage readAsDataURL (some f) i) s).marked[i]?
          = some (Json.bool true)
        ∧ (∀ k, k ≠ i →
            (settle (handleImage readAsDataURL (some f) i) s).board[k]? = s.board[k]?
            ∧ (settle (handleImage readAsDataURL (some f) i) s).marked[k]? = s.marked[k]?)
        ∧ (settle (handleImage readAsDataURL (some f) i) s).prompts = s.prompts
        ∧ (settle (handleImage readAsDataURL (some f) i) s).preview = s.preview)
    ∧ handleImage readAsDataURL none i = none
    ∧ settle (handleImage readAsDataURL none i) s = s := by
  refine ⟨fun f => ⟨rfl, rfl, ?_, ?_, ?_, rfl, rfl⟩, rfl, rfl⟩
  · simp [settle, handleImage, onload, List.getElem?_set, hboard, hi]
  · simp [settle, handleImage, onload, List.getElem?_set, hmarked, hi]
  · intro k hk
    simp [settle, handleImage, onload, List.getElem?_set, Ne.symm hk]

/-- Claim C5, instance: an image for cell 0 of the state of the first render,
with the decoder the identity on strings. -/
theorem handleImage_spec_witness :
    0 < 25 ∧ (initialState lastChoices).board.length = 25
    ∧ (initialState lastChoices).marked.length = 25
    ∧ (settle (handleImage (fun f : String => f) (some "data:image/png;base64,AA") 0)
        (initialState lastChoices)).marked[0]? = some (Json.bool true) :=
  ⟨by decide, rfl, rfl,
    ((handleImage_spec (fun f : String => f) (initialState lastChoices) 0 (by decide) rfl
      rfl).1 "data:image/png;base64,AA").2.2.2.1⟩


/-! ## Reset -/

/-- Claim C6.  From any prior state and store, `resetBoardRandom` leaves
`marked` all false, `board` all `null` except `"FREE"` at index 12, `prompts`
equal to a fresh output of `buildRandomPrompts25`, and the preview closed;
and on a writable store the slot then holds exactly the record of that new
`board`, `marked` and `prompts`. -/
theorem resetBoardRandom_spec (fresh : Choices) (s : State) (st : Storage) :
    (resetBoardRandom fresh s st).state.marked = List.replicate 25 (Json.bool false)
    ∧ (resetBoardRandom fresh s st).state.board
        = (List.replicate 25 Json.null).set 12 (Json.str "FREE")
    ∧ (resetBoardRandom fresh s st).state.prompts = (buildRandomPrompts25 fresh).map Json.str
    ∧ (resetBoardRandom fresh s st).state.preview.isOpen = false
    ∧ (resetBoardRandom fresh s st).state.preview = closedPreview
    ∧ (st.writable = true →
        (resetBoardRandom fresh s st).storage.item
          = some (stringify (record (Json.arr (resetBoardRandom fresh s st).state.board)
              (Json.arr (resetBoardRandom fresh s st).state.marked)
              (Json.arr (resetBoardRandom fresh s st).state.prompts)))
        ∧ (resetBoardRandom fresh s st).thrown = false) := by
  unfold resetBoardRandom setItem
  cases hw : st.writable <;> simp [allUnmarked, buildInitialBoard, closedPreview]

/-- Claim C6, instance: a reset of the marked-up state on the empty store. -/
theorem resetBoardRandom_spec_witness :
    emptyStorage.writable = true
    ∧ (resetBoardRandom lastChoices (markAllBut24 (initialState lastChoices))
        emptyStorage).storage.item
      = some (stringify (record (Json.arr buildInitialBoard) (Json.arr allUnmarked)
          (Json.arr ((buildRandomPrompts25 lastChoices).map Json.str)))) :=
  ⟨rfl, ((resetBoardRandom_spec lastChoices (markAllBut24 (initialState lastChoices))
    emptyStorage).2.2.2.2.2 rfl).1⟩


/-! ## Loading and saving -/

theorem applySaved_fields (fresh : Choices) (s : State) (st : Storage) (saved : Json) :
    (applySaved fresh s st saved).state.board
        = (asArray25 (getProp saved "board")).getD s.board
    ∧ (applySaved fresh s st saved).state.marked
        = (asArray25 (getProp saved "marked")).getD s.marked
    ∧ (applySaved fresh s st saved).state.prompts
        = (asArray25 (getProp saved "prompts")).getD
            ((buildRandomPrompts25 fresh).map Json.str)
    ∧ (applySaved fresh s st saved).state.preview = s.preview
    ∧ (applySaved fresh s st saved).thrown = false := by
  unfold applySaved setItem
  generalize (buildRandomPrompts25 fresh).map Json.str = fp
  generalize asArray25 (getProp saved "board") = b
  generalize asArray25 (getProp saved "marked") = m
  generalize asArray25 (getProp saved "prompts") = p
  cases b <;> cases m <;> cases p <;> cases st.writable <;> simp

theorem applySaved_state_writable (fresh : Choices) (s : State) (st : Storage) (saved : Json)
    (w : Bool) :
    (applySaved fresh s { st with writable := w } saved).state
      = (applySaved fresh s st saved).state := by
  unfold applySaved setItem
  generalize (buildRandomPrompts25 fresh).map Json.str = fp
  generalize asArray25 (getProp saved "board") = b
  generalize asArray25 (getProp saved "marked") = m
  generalize asArray25 (getProp saved "prompts") = p
  cases b <;> cases m <;> cases p <;> cases st.writable <;> cases w <;> simp

theorem loadEffect_json (fresh : Choices) (s : State) (v : Json) (wr : Bool) :
    (loadEffect fresh s ⟨some (Raw.json v), true, wr⟩).state.board
        = (asArray25 (getProp v "board")).getD s.board
    ∧ (loadEffect fresh s ⟨some (Raw.json v), true, wr⟩).state.marked
        = (asArray25 (getProp v "marked")).getD s.marked
    ∧ ((∃ x, getProp v "prompts" = some x) →
        (loadEffect fresh s ⟨some (Raw.json v), true, wr⟩).state.prompts
          = (asArray25 (getProp v "prompts")).getD
              ((buildRandomPrompts25 fresh).map Json.str)) := by
  have h := applySaved_fields fresh s ⟨some (Raw.json v), true, wr⟩ v
  cases v
  case null => exact ⟨rfl, rfl, fun h => by obtain ⟨x, hx⟩ := h; simp [getProp] at hx⟩
  all_goals exact ⟨h.1, h.2.1, fun _ => h.2.2.1⟩

theorem loadEffect_thrown (fresh : Choices) (s : State) (st : Storage) :
    (loadEffect fresh s st).thrown = false := by
  obtain ⟨item, rd, wr⟩ := st
  unfold loadEffect getItem setItem
  cases rd
  · rfl
  · cases item with
    | none => cases wr <;> simp
    | some raw =>
      cases raw with
      | empty => cases wr <;> simp
      | garbage => simp [parse]
      | json v => cases v <;> simp [parse, applySaved_fields]

theorem loadEffect_state_writable (fresh : Choices) (s : State) (st : Storage) (w : Bool) :
    (loadEffect fresh s { st with writable := w }).state = (loadEffect fresh s st).state := by
  obtain ⟨item, rd, wr⟩ := st
  unfold loadEffect getItem setItem
  cases rd
  · rfl
  · cases item with
    | none => cases wr <;> cases w <;> simp
    | some raw =>
      cases raw with
      | empty => cases wr <;> cases w <;> simp
      | garbage => simp [parse]
      | json v =>
        have h := applySaved_state_writable fresh s ⟨some (Raw.json v), true, wr⟩ v w
        cases v <;> simp [parse] <;> exact h


theorem asArray25_arr (xs : List Json) :
    asArray25 (some (Json.arr xs)) = if xs.length = 25 then some xs else none := rfl

theorem mount_fields (c fresh : Choices) (v : Json) (wr : Bool) :
    (∀ xs, getProp v "board" = some (Json.arr xs) →
        (mount c fresh ⟨some (Raw.json v), true, wr⟩).state.board
          = if xs.length = 25 then xs else buildInitialBoard)
    ∧ (∀ xs, getProp v "marked" = some (Json.arr xs) →
        (mount c fresh ⟨some (Raw.json v), true, wr⟩).state.marked
          = if xs.length = 25 then xs else allUnmarked)
    ∧ (∀ xs, getProp v "prompts" = some (Json.arr xs) →
        (mount c fresh ⟨some (Raw.json v), true, wr⟩).state.prompts
          = if xs.length = 25 then xs else (buildRandomPrompts25 fresh).map Json.str) := by
  obtain ⟨hb, hm, hp⟩ := loadEffect_json fresh (initialState c) v wr
  refine ⟨fun xs hxs => ?_, fun xs hxs => ?_, fun xs hxs => ?_⟩
  · unfold mount
    rw [hb, hxs, asArray25_arr]
    split <;> rfl
  · unfold mount
    rw [hm, hxs, asArray25_arr]
    split <;> rfl
  · unfold mount
    rw [hp ⟨_, hxs⟩, hxs, asArray25_arr]
    split <;> simp only [Option.getD_some, Option.getD_none]

theorem getProp_record (b m p : Json) :
    getProp (record b m p) "board" = some b
    ∧ getProp (record b m p) "marked" = some m
    ∧ getProp (record b m p) "prompts" = some p := by
  refine ⟨?_, ?_, ?_⟩ <;> simp [getProp, record, List.lookup]

/-- Claim C7.  Loading is a per-field round trip.  For every stored record,
each of `board`, `marked` and `prompts` that is an array is loaded unchanged
when it has exactly 25 elements and replaced by its own default (the empty
board with `"FREE"` at 12, the all-false marks, freshly generated prompts)
when it has another length, independently of the other two fields; so a
snapshot saved from a state whose three arrays have 25 elements loads back
as the same three arrays. -/
theorem load_round_trip_per_field (c fresh : Choices) (v : Json) (wr : Bool) :
    (∀ xs, getProp v "board" = some (Json.arr xs) →
        (mount c fresh ⟨some (Raw.json v), true, wr⟩).state.board
          = if xs.length = 25 then xs else buildInitialBoard)
    ∧ (∀ xs, getProp v "marked" = some (Json.arr xs) →
        (mount c fresh ⟨some (Raw.json v), true, wr⟩).state.marked
          = if xs.length = 25 then xs else allUnmarked)
    ∧ (∀ xs, getProp v "prompts" = some (Json.arr xs) →
        (mount c fresh ⟨some (Raw.json v), true, wr⟩).state.prompts
          = if xs.length = 25 then xs else (buildRandomPrompts25 fresh).map Json.str)
    ∧ (∀ (s : State) (st : Storage), st.readable = true → st.writable = true →
        s.board.length = 25 → s.marked.length = 25 → s.prompts.length = 25 →
        (mount c fresh (saveEffect s st).storage).state.board = s.board
        ∧ (mount c fresh (saveEffect s st).storage).state.marked = s.marked
        ∧ (mount c fresh (saveEffect s st).storage).state.prompts = s.prompts) := by
  obtain ⟨hb, hm, hp⟩ := mount_fields c fresh v wr
  refine ⟨hb, hm, hp, ?_⟩
  intro s st hr hw h1 h2 h3
  obtain ⟨item, rd, w⟩ := st
  simp only at hr hw
  subst hr hw
  have hst : (saveEffect s ⟨item, true, true⟩).storage
      = ⟨some (Raw.json (snapshot s)), true, true⟩ := rfl
  rw [hst]
  obtain ⟨gb, gm, gp⟩ := getProp_record (Json.arr s.board) (Json.arr s.marked)
    (Json.arr s.prompts)
  obtain ⟨kb, km, kp⟩ := mount_fields c fresh (snapshot s) true
  refine ⟨?_, ?_, ?_⟩
  · rw [kb s.board gb, if_pos h1]
  · rw [km s.marked gm, if_pos h2]
  · rw [kp s.prompts gp, if_pos h3]


/-- Claim C7, instance: a stored record whose `board` has 3 elements and
whose `marked` has 25 loads the default board and the stored marks; and the
state of the first render with cell 0 toggled, saved to the empty store,
loads back as the same three arrays. -/
theorem load_round_trip_per_field_witness :
    (mount lastChoices lastChoices ⟨some (Raw.json shortBoardRecord), true, true⟩).state.board
      = buildInitialBoard
    ∧ (mount lastChoices lastChoices ⟨some (Raw.json shortBoardRecord), true, true⟩).state.marked
      = List.replicate 25 (Json.bool true)
    ∧ emptyStorage.readable = true ∧ emptyStorage.writable = true
    ∧ (toggleMark (initialState lastChoices) 0).board.length = 25
    ∧ (toggleMark (initialState lastChoices) 0).marked.length = 25
    ∧ (toggleMark (initialState lastChoices) 0).prompts.length = 25
    ∧ (mount lastChoices lastChoices
        (saveEffect (toggleMark (initialState lastChoices) 0) emptyStorage).storage).state.marked
      = (toggleMark (initialState lastChoices) 0).marked :=
  ⟨((load_round_trip_per_field lastChoices lastChoices shortBoardRecord true).1 _
      (getProp_record _ _ _).1).trans (if_neg (by decide)),
    ((load_round_trip_per_field lastChoices lastChoices shortBoardRecord true).2.1 _
      (getProp_record _ _ _).2.1).trans (if_pos (by decide)),
    rfl, rfl, by decide, by decide, by decide,
    ((load_round_trip_per_field lastChoices lastChoices shortBoardRecord true).2.2.2
      (toggleMark (initialState lastChoices) 0) emptyStorage rfl rfl
      (by decide) (by decide) (by decide)).2.1⟩

/-- Claim C8 (fails on the code).  The stored record `mistypedRecord` has a
`marked` field of 25 strings; loading it puts those 25 strings into `marked`
instead of the all-false default. -/
theorem load_accepts_mistyped_marked :
    getProp mistypedRecord "marked" = some (Json.arr (List.replicate 25 (Json.str "yes")))
    ∧ (mount lastChoices lastChoices ⟨some (Raw.json mistypedRecord), true, true⟩).state.marked
      = List.replicate 25 (Json.str "yes")
    ∧ (mount lastChoices lastChoices ⟨some (Raw.json mistypedRecord), true, true⟩).state.marked
      ≠ allUnmarked := by
  have hget := (getProp_record (Json.arr buildInitialBoard)
    (Json.arr (List.replicate 25 (Json.str "yes")))
    (Json.arr ((buildRandomPrompts25 lastChoices).map Json.str))).2.1
  have hload : (mount lastChoices lastChoices
      ⟨some (Raw.json mistypedRecord), true, true⟩).state.marked
      = List.replicate 25 (Json.str "yes") :=
    ((mount_fields lastChoices lastChoices mistypedRecord true).2.1 _ hget).trans
      (if_pos (by decide))
  refine ⟨hget, hload, ?_⟩
  rw [hload]
  simp [allUnmarked, List.replicate]


theorem asArray25_eq_none (x : Option Json)
    (h : ∀ xs, x = some (Json.arr xs) → xs.length ≠ 25) : asArray25 x = none := by
  cases x with
  | none => rfl
  | some v =>
    cases v <;> try rfl
    case arr xs => rw [asArray25_arr, if_neg (h xs rfl)]

theorem loadEffect_json_prompts_none (fresh : Choices) (s : State) (v : Json) (wr : Bool)
    (h : asArray25 (getProp v "prompts") = none) :
    (loadEffect fresh s ⟨some (Raw.json v), true, wr⟩).state.prompts
        = (buildRandomPrompts25 fresh).map Json.str
    ∨ (loadEffect fresh s ⟨some (Raw.json v), true, wr⟩).state.prompts = s.prompts := by
  have hf := (applySaved_fields fresh s ⟨some (Raw.json v), true, wr⟩ v).2.2.1
  rw [h, Option.getD_none] at hf
  cases v
  case null => exact Or.inr rfl
  all_goals exact Or.inl hf

/-- Claim C8, amended.  The load step accepts a stored field exactly when it
is an array of exactly 25 elements; the types of the elements are not
looked at.  For every stored record, a field that is an array of 25 elements
of any kind is loaded unchanged, and a field that is not an array of 25
elements is replaced by that field's default: the empty board with `"FREE"`
at 12, the all-false marks, and generated prompts (the fresh set, or the set
of the first render when the record is `null`). -/
theorem load_checks_array_and_length_only (c fresh : Choices) (v : Json) (wr : Bool) :
    (∀ xs : List Json, xs.length = 25 →
        (getProp v "board" = some (Json.arr xs) →
          (mount c fresh ⟨some (Raw.json v), true, wr⟩).state.board = xs)
        ∧ (getProp v "marked" = some (Json.arr xs) →
          (mount c fresh ⟨some (Raw.json v), true, wr⟩).state.marked = xs)
        ∧ (getProp v "prompts" = some (Json.arr xs) →
          (mount c fresh ⟨some (Raw.json v), true, wr⟩).state.prompts = xs))
    ∧ ((∀ xs, getProp v "board" = some (Json.arr xs) → xs.length ≠ 25) →
        (mount c fresh ⟨some (Raw.json v), true, wr⟩).state.board = buildInitialBoard)
    ∧ ((∀ xs, getProp v "marked" = some (Json.arr xs) → xs.length ≠ 25) →
        (mount c fresh ⟨some (Raw.json v), true, wr⟩).state.marked = allUnmarked)
    ∧ ((∀ xs, getProp v "prompts" = some (Json.arr xs) → xs.length ≠ 25) →
        (mount c fresh ⟨some (Raw.json v), true, wr⟩).state.prompts
            = (buildRandomPrompts25 fresh).map Json.str
        ∨ (mount c fresh ⟨some (Raw.json v), true, wr⟩).state.prompts
            = (buildRandomPrompts25 c).map Json.str) := by
  obtain ⟨hb, hm, hp⟩ := mount_fields c fresh v wr
  obtain ⟨lb, lm, _⟩ := loadEffect_json fresh (initialState c) v wr
  refine ⟨fun xs hlen => ⟨fun h => ?_, fun h => ?_, fun h => ?_⟩, fun h => ?_, fun h => ?_,
    fun h => ?_⟩
  · rw [hb xs h, if_pos hlen]
  · rw [hm xs h, if_pos hlen]
  · rw [hp xs h, if_pos hlen]
  · unfold mount
    rw [lb, asArray25_eq_none _ h]
    rfl
  · unfold mount
    rw [lm, asArray25_eq_none _ h]
    rfl
  · have hinit : (initialState c).prompts = (buildRandomPrompts25 c).map Json.str := by
      simp only [initialState]
    unfold mount
    rw [← hinit]
    exact loadEffect_json_prompts_none fresh (initialState c) v wr (asArray25_eq_none _ h)

/-- Claim C8, instance: the 25 strings of `mistypedRecord` are loaded as
they are. -/
theorem load_checks_array_and_length_only_witness :
    (List.replicate 25 (Json.str "yes")).length = 25
    ∧ getProp mistypedRecord "marked" = some (Json.arr (List.replicate 25 (Json.str "yes")))
    ∧ (mount lastChoices lastChoices ⟨some (Raw.json mistypedRecord), true, true⟩).state.marked
      = List.replicate 25 (Json.str "yes") :=
  ⟨by decide, (getProp_record _ _ _).2.1,
    ((load_checks_array_and_length_only lastChoices lastChoices mistypedRecord true).1
      (List.replicate 25 (Json.str "yes")) (by decide)).2.1 (getProp_record _ _ _).2.1⟩

/-! ## Failing writes -/

theorem saveEffect_spec (s : State) (st : Storage) :
    (saveEffect s st).thrown = false ∧ (saveEffect s st).state = s := by
  unfold saveEffect setItem
  cases st.writable <;> exact ⟨rfl, rfl⟩

/-- Claim C9 (fails on the code for `resetBoardRandom`).  On a store that
rejects writes, the load effect (first-run initialisation and the re-save of
a repaired record) and the save effect catch the failure and let nothing
escape, and all three operations end in the same in-memory state as on a
writable store; but `resetBoardRandom` writes outside any `try`, so there the
exception leaves the handler: reset on the state of the first render with
the store `fullStorage` ends with the exception thrown. -/
theorem resetBoardRandom_lets_write_failure_escape :
    (∀ (fresh : Choices) (s : State) (st : Storage),
        (loadEffect fresh s { st with writable := false }).thrown = false
        ∧ (saveEffect s { st with writable := false }).thrown = false
        ∧ (loadEffect fresh s { st with writable := false }).state
            = (loadEffect fresh s { st with writable := true }).state
        ∧ (saveEffect s { st with writable := false }).state
            = (saveEffect s { st with writable := true }).state
        ∧ (resetBoardRandom fresh s { st with writable := false }).state
            = (resetBoardRandom fresh s { st with writable := true }).state
        ∧ (resetBoardRandom fresh s { st with writable := true }).thrown = false
        ∧ (resetBoardRandom fresh s { st with writable := false }).thrown = true)
    ∧ (resetBoardRandom lastChoices (initialState lastChoices) fullStorage).thrown = true := by
  refine ⟨fun fresh s st => ⟨loadEffect_thrown _ _ _, (saveEffect_spec _ _).1, ?_, ?_, rfl, rfl,
    rfl⟩, rfl⟩
  · exact (loadEffect_state_writable fresh s st false).trans
      (loadEffect_state_writable fresh s st true).symm
  · rw [(saveEffect_spec _ _).2, (saveEffect_spec _ _).2]

end BeachBingo
